import Mathlib

/-!
Shallow embedding of `src/arena.c`, a fixed-size-slot arena allocator with an
intrusive free list, lazy initialization, and a guard/corruption-detection
layer.

Modelling conventions:
* Memory is a byte map `Mem := Nat → Nat` (reads are taken mod 256); pointers
  are byte addresses, with `0` standing for the C `NULL`.
* The arena header (`struct arena`) is kept as a Lean structure; the slot
  buffer lives in the byte map.  No slot-level write of the C code ever aliases
  the header bytes (the buffer starts after the header), so this split is
  faithful.
* `size_t` arithmetic that can overflow in C (the required-length computation
  and the buffer-size product `count*size` at creation time) is taken mod
  `2 ^ 64`, exactly where C reduces it.
* The C `error` hook (which never returns) is modelled by `Except.error`.
* The `HEAP_CHECK` build flag is a `Bool` parameter `hc` on the operations
  whose compiled body depends on it.
-/

namespace ArenaC

/-- Byte-addressed memory. -/
abbrev Mem : Type := Nat → Nat

/-- Native pointer size of the modelled LP64 platform: `sizeof(struct node*)`. -/
def PTR_SIZE : Nat := 8

/-- Byte size of `struct arena` on LP64: two `size_t`, a padded `bool`, four pointers. -/
def ARENA_HEADER_SIZE : Nat := 56

/-- Modulus of `size_t` arithmetic. -/
def SIZE_T_MOD : Nat := 2 ^ 64

/-- The sentinel pattern written into the `guard` field of a freed node. -/
def GUARD_BITS : Nat := 0xFF30000811100F1B

/-- Store the 64-bit value `v` little-endian at bytes `a .. a+7`. -/
def write64 (m : Mem) (a v : Nat) : Mem :=
  fun x => if a ≤ x ∧ x < a + 8 then v / 256 ^ (x - a) % 256 else m x

/-- Load the 64-bit little-endian value at bytes `a .. a+7`. -/
def read64 (m : Mem) (a : Nat) : Nat :=
  m a % 256 + 256 * (m (a + 1) % 256) + 256 ^ 2 * (m (a + 2) % 256) +
    256 ^ 3 * (m (a + 3) % 256) + 256 ^ 4 * (m (a + 4) % 256) +
    256 ^ 5 * (m (a + 5) % 256) + 256 ^ 6 * (m (a + 6) % 256) +
    256 ^ 7 * (m (a + 7) % 256)

/-- The `struct arena` header of `src/arena.c`.  Pointer fields hold byte
addresses into `Mem`; `free_list = 0` is the C `NULL`. -/
structure Arena where
  size : Nat
  count : Nat
  lazy_init : Bool
  free_list : Nat
  bufstart : Nat
  buffer : Nat
  bufend : Nat
deriving DecidableEq

/-- The fatal conditions reported through the `error` hook of `src/arena.c`. -/
inductive ArenaErr where
  | invalidFree
  | doubleFree
  | cyclicFree
  | useAfterFree
deriving DecidableEq

/-- Embedding of `in_range`: true if `n` is in the interval `[low, high)`. -/
def in_range (low n high : Nat) : Bool :=
  decide (low ≤ n) && decide (n < high)

/-- Embedding of the local `max` of `src/arena.c` (`a <= b ? b : a`); named
`szmax` because `max` collides with the Lean builtin. -/
def szmax (a b : Nat) : Nat :=
  if a ≤ b then b else a

/-- Bytes written for the arena header by `arena_init_` (`*a = (struct arena){...}`).
The exact layout is irrelevant to every claim (nothing reads these bytes back);
what matters is that placement creation writes only on success. -/
def writeHeader (m : Mem) (base size count buf : Nat) : Mem :=
  write64 (write64 (write64 (write64 (write64 (write64 (write64 m
    base size) (base + 8) count) (base + 16) 1) (base + 24) 0)
    (base + 32) buf) (base + 40) buf) (base + 48) (buf + count * size)

/-- Embedding of `arena_init_`: placement creation inside `len` bytes at `mem`.
Returns the created header (or `none`) together with the resulting memory.
The `count*size` offset of `bufend` is a `size_t` product and wraps mod
`2 ^ 64`, exactly as in C. -/
def arena_init_ (size count mem len : Nat) (m : Mem) : Option Arena × Mem :=
  let size := szmax size PTR_SIZE
  if len < (ARENA_HEADER_SIZE + size * count) % SIZE_T_MOD then (none, m)
  else
    let buf := mem + ARENA_HEADER_SIZE
    (some { size := size, count := count, lazy_init := true, free_list := 0,
            bufstart := buf, buffer := buf,
            bufend := buf + count * size % SIZE_T_MOD },
     writeHeader m mem size count buf)

/-- Embedding of `arena_init`: heap creation.  `buf?` is the result of the
backing `ALLOC` call (`none` models a failed `malloc`). -/
def arena_init (size count : Nat) (buf? : Option Nat) (m : Mem) : Option Arena × Mem :=
  let size := szmax size PTR_SIZE
  let allocated := (ARENA_HEADER_SIZE + count * size) % SIZE_T_MOD
  match buf? with
  | none => (none, m)
  | some buf => arena_init_ size count buf allocated m

/-- Loop of `check_heap`: follow `next` links; with `count` steps of fuel
exhausted while the pointer is still non-null, the list is overlong/cyclic. -/
def check_heap_go (m : Mem) : Nat → Nat → Except ArenaErr Unit
  | fuel, p =>
    if p = 0 then .ok ()
    else
      match fuel with
      | 0 => .error .cyclicFree
      | f + 1 => check_heap_go m f (read64 m (p + 8))

/-- Embedding of `check_heap` (compiled only under `HEAP_CHECK`). -/
def check_heap (a : Arena) (m : Mem) : Except ArenaErr Unit :=
  check_heap_go m a.count a.free_list

/-- Embedding of `detect_double_free` (compiled only under `HEAP_CHECK`).
The C loop is unbounded; it is only ever run right after `check_heap`
succeeded, which bounds the list by `count` nodes, so fuel `count` suffices
and the fuel-exhaustion branch is unreachable in the compiled code. -/
def detect_double_free_go (m : Mem) (n : Nat) : Nat → Nat → Except ArenaErr Unit
  | fuel, c =>
    if c = 0 then .ok ()
    else if c = n then .error .doubleFree
    else
      match fuel with
      | 0 => .ok ()
      | f + 1 => detect_double_free_go m n f (read64 m (c + 8))

/-- Embedding of `recycle`: pop the free-list head after validating its guard
word.  Returns the popped address (`none` for NULL) and the new head. -/
def recycle (fl : Nat) (m : Mem) : Except ArenaErr (Option Nat × Nat) :=
  if fl = 0 then .ok (none, fl)
  else if read64 m fl ≠ GUARD_BITS then .error .useAfterFree
  else .ok (some fl, read64 m (fl + 8))

/-- Embedding of `lazy_alloc`. -/
def lazy_alloc (a : Arena) (m : Mem) : Except ArenaErr (Option Nat × Arena) :=
  if a.bufstart = a.bufend then
    match recycle a.free_list m with
    | .error e => .error e
    | .ok (r, fl) => .ok (r, { a with lazy_init := false, free_list := fl })
  else
    .ok (some a.bufstart, { a with bufstart := a.bufstart + a.size })

/-- Embedding of `arena_alloc`.  Allocation reads but never writes memory, so
only the header changes. -/
def arena_alloc (a : Arena) (m : Mem) : Except ArenaErr (Option Nat × Arena) :=
  if a.lazy_init then lazy_alloc a m
  else
    match recycle a.free_list m with
    | .error e => .error e
    | .ok (r, fl) => .ok (r, { a with free_list := fl })

/-- Embedding of `arena_free`.  `hc` is the `HEAP_CHECK` build flag: it gates
only the `check_heap` and `detect_double_free` calls; the bounds check and the
guard/next stores are unconditional. -/
def arena_free (hc : Bool) (a : Arena) (m : Mem) (p : Nat) :
    Except ArenaErr (Arena × Mem) :=
  if p = 0 then .ok (a, m)
  else if !(in_range a.buffer p a.bufend) then .error .invalidFree
  else
    match (if hc then check_heap a m else .ok ()) with
    | .error e => .error e
    | .ok _ =>
      match (if hc then detect_double_free_go m p a.count a.free_list else .ok ()) with
      | .error e => .error e
      | .ok _ =>
        let m1 := write64 m p GUARD_BITS
        let m2 := write64 m1 (p + 8) a.free_list
        .ok ({ a with free_list := p }, m2)

/-- Embedding of `arena_reset`.  It performs no memory writes at all (its
result type returns no `Mem`); under `HEAP_CHECK` it first runs the read-only
`check_heap` traversal. -/
def arena_reset (hc : Bool) (a : Arena) (m : Mem) : Except ArenaErr Arena :=
  match (if hc then check_heap a m else .ok ()) with
  | .error e => .error e
  | .ok _ => .ok { a with lazy_init := true, bufstart := a.buffer, free_list := 0 }

/-- Run `n` successive `arena_alloc` calls, collecting the returned addresses. -/
def allocRun (m : Mem) (a : Arena) : Nat → Except ArenaErr (List (Option Nat) × Arena)
  | 0 => .ok ([], a)
  | n + 1 =>
    match arena_alloc a m with
    | .error e => .error e
    | .ok (r, a1) =>
      match allocRun m a1 n with
      | .error e => .error e
      | .ok (rs, a2) => .ok (r :: rs, a2)

/-- Observation function for stating the free-list invariants: the list of node
addresses reached from `p` by following `next` links, cut off at NULL or after
`fuel` nodes. -/
def freeListWalk (m : Mem) : Nat → Nat → List Nat
  | 0, _ => []
  | fuel + 1, p => if p = 0 then [] else p :: freeListWalk m fuel (read64 m (p + 8))

/-- Modelled from the spec: the rounding the spec ascribes to creation, "the
least multiple of `sizeof(void*)` that is `>= slot_size`".  This is the
spec-side definition to compare against the `szmax` clamp of the source. -/
def specRoundUp (n : Nat) : Nat :=
  (n + (PTR_SIZE - 1)) / PTR_SIZE * PTR_SIZE

/-- One public mutating call of the fast-path (`HEAP_CHECK` off) build, as a
step relation on (header, memory) pairs. -/
inductive Step : Arena × Mem → Arena × Mem → Prop where
  | alloc (a : Arena) (m : Mem) (r : Option Nat) (a1 : Arena)
      (h : arena_alloc a m = .ok (r, a1)) : Step (a, m) (a1, m)
  | free (a : Arena) (m : Mem) (p : Nat) (a1 : Arena) (m1 : Mem)
      (h : arena_free false a m p = .ok (a1, m1)) : Step (a, m) (a1, m1)
  | reset (a : Arena) (m : Mem) (a1 : Arena)
      (h : arena_reset false a m = .ok a1) : Step (a, m) (a1, m)

/-! ### Helper lemmas about the byte map -/

theorem write64_apply_lt (m : Mem) (a v x : Nat) (h : x < a) :
    write64 m a v x = m x := by
  unfold write64
  rw [if_neg (by omega : ¬(a ≤ x ∧ x < a + 8))]

theorem write64_apply_ge (m : Mem) (a v x : Nat) (h : a + 8 ≤ x) :
    write64 m a v x = m x := by
  unfold write64
  rw [if_neg (by omega : ¬(a ≤ x ∧ x < a + 8))]

theorem write64_apply_in (m : Mem) (a v i : Nat) (h : i < 8) :
    write64 m a v (a + i) = v / 256 ^ i % 256 := by
  unfold write64
  rw [if_pos ⟨Nat.le_add_right a i, by omega⟩, Nat.add_sub_cancel_left]

theorem write64_apply_self (m : Mem) (a v : Nat) :
    write64 m a v a = v % 256 := by
  have h := write64_apply_in m a v 0 (by omega)
  simpa using h

/-- Reading back the guard word stored by `arena_free`: the later store of the
`next` field at `a + 8` does not disturb the eight guard bytes at `a`. -/
theorem read64_guard_roundtrip (m : Mem) (a v : Nat) :
    read64 (write64 (write64 m a GUARD_BITS) (a + 8) v) a = GUARD_BITS := by
  unfold read64
  rw [write64_apply_lt _ _ _ a (by omega), write64_apply_lt _ _ _ (a + 1) (by omega),
      write64_apply_lt _ _ _ (a + 2) (by omega), write64_apply_lt _ _ _ (a + 3) (by omega),
      write64_apply_lt _ _ _ (a + 4) (by omega), write64_apply_lt _ _ _ (a + 5) (by omega),
      write64_apply_lt _ _ _ (a + 6) (by omega), write64_apply_lt _ _ _ (a + 7) (by omega),
      write64_apply_self, write64_apply_in _ _ _ 1 (by omega),
      write64_apply_in _ _ _ 2 (by omega), write64_apply_in _ _ _ 3 (by omega),
      write64_apply_in _ _ _ 4 (by omega), write64_apply_in _ _ _ 5 (by omega),
      write64_apply_in _ _ _ 6 (by omega), write64_apply_in _ _ _ 7 (by omega)]
  decide

/-! ### Helper lemmas about the arena operations -/

theorem arena_init_eq_some (ss count base len : Nat) (m0 : Mem) (a0 : Arena) (m1 : Mem)
    (h : arena_init_ ss count base len m0 = (some a0, m1)) :
    a0 = { size := szmax ss PTR_SIZE, count := count, lazy_init := true, free_list := 0,
           bufstart := base + ARENA_HEADER_SIZE, buffer := base + ARENA_HEADER_SIZE,
           bufend := base + ARENA_HEADER_SIZE + count * szmax ss PTR_SIZE % SIZE_T_MOD } := by
  simp only [arena_init_] at h
  split at h
  · exact absurd (congrArg Prod.fst h) (by simp)
  · simp only [Prod.mk.injEq] at h
    exact (Option.some.inj h.1).symm

theorem allocRun_fresh (m : Mem) :
    ∀ (n : Nat) (a : Arena), a.lazy_init = true → 0 < a.size →
      a.bufend = a.bufstart + n * a.size →
      allocRun m a n =
        .ok ((List.range n).map (fun i => some (a.bufstart + i * a.size)),
             { a with bufstart := a.bufstart + n * a.size }) := by
  intro n
  induction n with
  | zero => intro a _ _ _; simp [allocRun]
  | succ k ih =>
    intro a h1 h2 h3
    have hpos : 0 < (k + 1) * a.size := Nat.mul_pos (Nat.succ_pos k) h2
    have hne : a.bufstart ≠ a.bufend := by rw [h3]; omega
    have halloc : arena_alloc a m =
        .ok (some a.bufstart, { a with bufstart := a.bufstart + a.size }) := by
      simp [arena_alloc, h1, lazy_alloc, hne]
    have hih := ih { a with bufstart := a.bufstart + a.size } h1 h2
      (by simp only []; rw [h3]; ring)
    have goalEq : allocRun m a (k + 1) =
        match arena_alloc a m with
        | .error e => .error e
        | .ok (r1, c) =>
          match allocRun m c k with
          | .error e => .error e
          | .ok (rs, a2) => .ok (r1 :: rs, a2) := rfl
    rw [goalEq, halloc]
    dsimp only
    rw [hih]
    dsimp only
    have harith : a.bufstart + a.size + k * a.size = a.bufstart + (k + 1) * a.size := by ring
    rw [harith]
    have hlist : some a.bufstart ::
        (List.range k).map (fun i => some (a.bufstart + a.size + i * a.size)) =
        (List.range (k + 1)).map (fun i => some (a.bufstart + i * a.size)) := by
      rw [List.range_succ_eq_map, List.map_cons, List.map_map]
      have hhead : a.bufstart + 0 * a.size = a.bufstart := by ring
      simp only [hhead]
      have htail : ∀ i ∈ List.range k,
          ((fun i => some (a.bufstart + i * a.size)) ∘ Nat.succ) i =
          (fun i => some (a.bufstart + a.size + i * a.size)) i := by
        intro i _
        dsimp [Function.comp]
        congr 1
        ring
      rw [List.map_congr_left htail]
    rw [hlist]

theorem arena_alloc_exhausted (m : Mem) (a : Arena) (h1 : a.lazy_init = true)
    (h2 : a.bufstart = a.bufend) (h3 : a.free_list = 0) :
    arena_alloc a m = .ok (none, { a with lazy_init := false, free_list := 0 }) := by
  simp [arena_alloc, h1, lazy_alloc, h2, recycle, h3]

theorem arena_alloc_empty (m : Mem) (a : Arena) (h1 : a.lazy_init = false)
    (h3 : a.free_list = 0) : arena_alloc a m = .ok (none, a) := by
  obtain ⟨s, c, li, fl, bs, bu, be⟩ := a
  simp only at h1 h3
  subst h1; subst h3
  simp [arena_alloc, recycle]

theorem allocRun_snoc (m : Mem) :
    ∀ (n : Nat) (a : Arena) (l : List (Option Nat)) (a1 : Arena) (r : Option Nat) (a2 : Arena),
      allocRun m a n = .ok (l, a1) → arena_alloc a1 m = .ok (r, a2) →
      allocRun m a (n + 1) = .ok (l ++ [r], a2) := by
  intro n
  induction n with
  | zero =>
    intro a l a1 r a2 hrun halloc
    simp [allocRun] at hrun
    obtain ⟨hl, ha⟩ := hrun
    subst hl; subst ha
    simp [allocRun, halloc]
  | succ k ih =>
    intro a l a1 r a2 hrun halloc
    have hrunEq : allocRun m a (k + 1) =
        match arena_alloc a m with
        | .error e => .error e
        | .ok (r1, c) =>
          match allocRun m c k with
          | .error e => .error e
          | .ok (rs, a2) => .ok (r1 :: rs, a2) := rfl
    rw [hrunEq] at hrun
    cases h0 : arena_alloc a m with
    | error e =>
      rw [h0] at hrun
      exact absurd hrun (by simp)
    | ok pr =>
      obtain ⟨r0, b⟩ := pr
      rw [h0] at hrun
      dsimp only at hrun
      cases h1 : allocRun m b k with
      | error e =>
        rw [h1] at hrun
        exact absurd hrun (by simp)
      | ok pr2 =>
        obtain ⟨l2, b2⟩ := pr2
        rw [h1] at hrun
        dsimp only at hrun
        simp only [Except.ok.injEq, Prod.mk.injEq] at hrun
        obtain ⟨hl, hb2⟩ := hrun
        rw [hb2] at h1
        have hrec := ih b l2 a1 r a2 h1 halloc
        have goalEq : allocRun m a (k + 1 + 1) =
            match arena_alloc a m with
            | .error e => .error e
            | .ok (r1, c) =>
              match allocRun m c (k + 1) with
              | .error e => .error e
              | .ok (rs, a2) => .ok (r1 :: rs, a2) := rfl
        rw [goalEq, h0]
        dsimp only
        rw [hrec, ← hl]
        rfl

theorem arena_free_fast_ok (a : Arena) (m : Mem) (p : Nat) (hp : p ≠ 0)
    (hin : in_range a.buffer p a.bufend = true) :
    arena_free false a m p =
      .ok ({ a with free_list := p },
           write64 (write64 m p GUARD_BITS) (p + 8) a.free_list) := by
  simp [arena_free, hp, hin]

theorem arena_free_ok_inv (hc : Bool) (a : Arena) (m : Mem) (p : Nat) (a1 : Arena)
    (m1 : Mem) (hp : p ≠ 0) (h : arena_free hc a m p = .ok (a1, m1)) :
    in_range a.buffer p a.bufend = true ∧ a1 = { a with free_list := p } ∧
      m1 = write64 (write64 m p GUARD_BITS) (p + 8) a.free_list := by
  unfold arena_free at h
  rw [if_neg hp] at h
  cases hin : in_range a.buffer p a.bufend with
  | false => rw [hin] at h; simp at h
  | true =>
    rw [hin] at h
    simp only [Bool.not_true, Bool.false_eq_true, if_false] at h
    cases hchk : (if hc then check_heap a m else Except.ok ()) with
    | error e => rw [hchk] at h; simp at h
    | ok u =>
      rw [hchk] at h
      dsimp only at h
      cases hdf : (if hc then detect_double_free_go m p a.count a.free_list
          else Except.ok ()) with
      | error e => rw [hdf] at h; simp at h
      | ok u2 =>
        rw [hdf] at h
        dsimp only at h
        simp only [Except.ok.injEq, Prod.mk.injEq] at h
        exact ⟨rfl, h.1.symm, h.2.symm⟩

theorem arena_alloc_frame (a : Arena) (m : Mem) (r : Option Nat) (a1 : Arena)
    (h : arena_alloc a m = .ok (r, a1)) :
    a1.size = a.size ∧ a1.count = a.count ∧ a1.buffer = a.buffer ∧
      a1.bufend = a.bufend := by
  unfold arena_alloc lazy_alloc recycle at h
  repeat (any_goals split at h)
  all_goals simp at h
  all_goals (obtain ⟨h1, h2⟩ := h; subst h1; subst h2; exact ⟨rfl, rfl, rfl, rfl⟩)

theorem arena_free_frame (hc : Bool) (a : Arena) (m : Mem) (p : Nat) (a1 : Arena)
    (m1 : Mem) (h : arena_free hc a m p = .ok (a1, m1)) :
    a1.size = a.size ∧ a1.count = a.count ∧ a1.buffer = a.buffer ∧
      a1.bufend = a.bufend := by
  unfold arena_free at h
  repeat (any_goals split at h)
  all_goals simp at h
  all_goals (obtain ⟨h1, h2⟩ := h; subst h1; subst h2; exact ⟨rfl, rfl, rfl, rfl⟩)

theorem arena_reset_frame (hc : Bool) (a : Arena) (m : Mem) (a1 : Arena)
    (h : arena_reset hc a m = .ok a1) :
    a1.size = a.size ∧ a1.count = a.count ∧ a1.buffer = a.buffer ∧
      a1.bufend = a.bufend := by
  unfold arena_reset at h
  repeat (any_goals split at h)
  all_goals simp at h
  all_goals (subst h; exact ⟨rfl, rfl, rfl, rfl⟩)

/-- The structural well-formedness every reachable arena keeps: the fields
fixed at creation never change, and the buffer spans exactly `count` slots. -/
def WF (count : Nat) (x : Arena × Mem) : Prop :=
  x.1.count = count ∧ 0 < x.1.size ∧
    x.1.bufend = x.1.buffer + x.1.count * x.1.size

theorem Step_preserves_WF (count : Nat) (x y : Arena × Mem) (hs : Step x y)
    (hw : WF count x) : WF count y := by
  obtain ⟨h1, h2, h3⟩ := hw
  cases hs with
  | alloc a m r a1 h =>
    obtain ⟨f1, f2, f3, f4⟩ := arena_alloc_frame a m r a1 h
    exact ⟨by rw [f2]; exact h1, by rw [f1]; exact h2, by rw [f4, f3, f1, f2]; exact h3⟩
  | free a m p a1 m1 h =>
    obtain ⟨f1, f2, f3, f4⟩ := arena_free_frame false a m p a1 m1 h
    exact ⟨by rw [f2]; exact h1, by rw [f1]; exact h2, by rw [f4, f3, f1, f2]; exact h3⟩
  | reset a m a1 h =>
    obtain ⟨f1, f2, f3, f4⟩ := arena_reset_frame false a m a1 h
    exact ⟨by rw [f2]; exact h1, by rw [f1]; exact h2, by rw [f4, f3, f1, f2]; exact h3⟩

theorem reach_WF (count : Nat) (x y : Arena × Mem)
    (h : Relation.ReflTransGen Step x y) (hw : WF count x) : WF count y := by
  induction h with
  | refl => exact hw
  | tail _ hstep ih => exact Step_preserves_WF count _ _ hstep ih

theorem szmax_absorb (a b : Nat) : szmax (szmax a b) b = szmax a b := by
  by_cases h2 : a ≤ b <;> simp [szmax, h2]

theorem szmax_pos (a b : Nat) (hb : 0 < b) : 0 < szmax a b := by
  unfold szmax
  split <;> omega

/-- `arena_init` with a successful backing allocation always succeeds: the
buffer it requests is exactly the length `arena_init_` demands. -/
theorem arena_init_heap_ok (ss count base : Nat) (m0 : Mem) :
    arena_init ss count (some base) m0 =
      (some { size := szmax ss PTR_SIZE, count := count, lazy_init := true,
              free_list := 0, bufstart := base + ARENA_HEADER_SIZE,
              buffer := base + ARENA_HEADER_SIZE,
              bufend := base + ARENA_HEADER_SIZE + count * szmax ss PTR_SIZE % SIZE_T_MOD },
       writeHeader m0 base (szmax ss PTR_SIZE) count (base + ARENA_HEADER_SIZE)) := by
  simp only [arena_init, arena_init_, szmax_absorb]
  rw [if_neg (by rw [Nat.mul_comm (szmax ss PTR_SIZE) count]; exact Nat.lt_irrefl _)]

/-! ### Claim C3: reset restores full capacity after any interleaving -/

/-- What C3 asserts of a reachable state `(a, m)` of an arena created for
`count` slots: `arena_reset` only sets `lazy_init`, rewinds the bump cursor
and empties the free list (touching no memory, as its type shows), and after
it exactly `count` allocations succeed before exhaustion is signalled. -/
def ResetOutcome (a : Arena) (m : Mem) (count : Nat) : Prop :=
  a.count = count ∧
  arena_reset false a m =
    .ok { a with lazy_init := true, bufstart := a.buffer, free_list := 0 } ∧
  ∃ af, allocRun m { a with lazy_init := true, bufstart := a.buffer, free_list := 0 }
      (count + 1) =
    .ok ((List.range count).map (fun i => some (a.buffer + i * a.size)) ++ [none], af)

/-- C3 as stated is false at a `size_t` overflow: for `slot_size = 8`,
`count = 2 ^ 61` the product `count*size` wraps to `0`, so creation succeeds
inside 56 bytes with `bufend = buffer`, and after `arena_reset` (empty prior
interleaving) the very first of the claimed `count > 0` allocations already
reports exhaustion. -/
theorem C3_counterexample :
    ∃ a m1 ar a2,
      arena_init_ 8 2305843009213693952 8 56 (fun _ => 0) = (some a, m1) ∧
      arena_reset false a m1 = .ok ar ∧
      arena_alloc ar m1 = .ok (none, a2) ∧
      (0 : Nat) < 2305843009213693952 :=
  ⟨_, _, _, _, rfl, rfl, rfl, by decide⟩

/-- C3 amended: for every arena whose buffer-size product
`count * max(slot_size, sizeof(void*))` does not overflow `size_t`, and every
prior interleaving of `arena_alloc` and `arena_free` calls (any state
reachable from creation through the public operations), `arena_reset` only
sets `lazy_init := true`, rewinds the bump cursor to the buffer start and
empties the free list — walking no memory — and afterwards exactly `count`
successive `arena_alloc` calls succeed before the next one reports exhaustion
(`none`).  When that product wraps, creation already records the wrapped
buffer size, so fewer slots exist. -/
theorem C3_reset_restores_capacity (ss count base len : Nat) (m0 : Mem)
    (a0 : Arena) (m1 : Mem) (a : Arena) (m : Mem)
    (hov : count * szmax ss PTR_SIZE < SIZE_T_MOD)
    (hinit : arena_init_ ss count base len m0 = (some a0, m1))
    (hreach : Relation.ReflTransGen Step (a0, m1) (a, m)) :
    ResetOutcome a m count := by
  have ha0 := arena_init_eq_some ss count base len m0 a0 m1 hinit
  rw [Nat.mod_eq_of_lt hov] at ha0
  have hw0 : WF count (a0, m1) := by
    rw [ha0]
    exact ⟨rfl, szmax_pos ss PTR_SIZE (by decide), rfl⟩
  obtain ⟨hcount, hsize, hbufend⟩ := reach_WF count _ _ hreach hw0
  refine ⟨hcount, by simp [arena_reset], ?_⟩
  have hrun := allocRun_fresh m count
    { a with lazy_init := true, bufstart := a.buffer, free_list := 0 }
    rfl hsize (by dsimp only; rw [hbufend, hcount])
  have hlast := arena_alloc_exhausted m
    { a with lazy_init := true, bufstart := a.buffer + count * a.size, free_list := 0 }
    rfl (by dsimp only; rw [hbufend, hcount]) rfl
  dsimp only at hrun hlast
  exact ⟨_, allocRun_snoc m count _ _ _ _ _ hrun hlast⟩

/-- Witness for C3 at a concrete creation and the empty interleaving. -/
theorem C3_reset_restores_capacity_witness :
    1 * szmax 16 PTR_SIZE < SIZE_T_MOD ∧
    ResetOutcome { size := 16, count := 1, lazy_init := true, free_list := 0,
                   bufstart := 64, buffer := 64, bufend := 80 }
      (writeHeader (fun _ => 0) 8 16 1 64) 1 :=
  ⟨by decide, C3_reset_restores_capacity 16 1 8 72 (fun _ => 0) _ _ _ _ (by decide) rfl
    Relation.ReflTransGen.refl⟩

/-! ### Claim C1: a fresh arena hands out exactly `count` distinct slots -/

/-- What C1 asserts of a fresh heap-created arena: creation succeeds, the
`i`-th of the first `count` allocations returns `buffer + i * size`, the
`(count+1)`-th reports exhaustion (`none`), and those addresses are inside the
slot buffer, slot-aligned, pairwise distinct and non-overlapping. -/
def FreshRunOutcome (ss count base : Nat) (m0 : Mem) : Prop :=
  ∃ a m1 af,
    arena_init ss count (some base) m0 = (some a, m1) ∧
    a.size = szmax ss PTR_SIZE ∧
    a.buffer = base + ARENA_HEADER_SIZE ∧
    a.bufend = a.buffer + count * a.size ∧
    allocRun m1 a (count + 1) =
      .ok ((List.range count).map (fun i => some (a.buffer + i * a.size)) ++ [none], af) ∧
    (∀ i, i < count →
      a.buffer ≤ a.buffer + i * a.size ∧
      a.buffer + i * a.size + a.size ≤ a.bufend ∧
      (a.buffer + i * a.size - a.buffer) % a.size = 0) ∧
    (∀ i j, i < count → j < count → i ≠ j →
      a.buffer + i * a.size ≠ a.buffer + j * a.size ∧
      (a.buffer + i * a.size + a.size ≤ a.buffer + j * a.size ∨
       a.buffer + j * a.size + a.size ≤ a.buffer + i * a.size))

/-- The allocation run on any fresh arena header: `count` bump allocations
then an exhaustion signal. -/
theorem fresh_outcome_core (k count buf : Nat) (m : Mem) (hk : 0 < k) :
    ∃ af, allocRun m { size := k, count := count, lazy_init := true, free_list := 0,
                       bufstart := buf, buffer := buf, bufend := buf + count * k }
        (count + 1) =
      .ok ((List.range count).map (fun i => some (buf + i * k)) ++ [none], af) := by
  have hrun := allocRun_fresh m count
    { size := k, count := count, lazy_init := true, free_list := 0,
      bufstart := buf, buffer := buf, bufend := buf + count * k } rfl hk rfl
  dsimp only at hrun
  have hlast := arena_alloc_exhausted m
    { size := k, count := count, lazy_init := true, free_list := 0,
      bufstart := buf + count * k, buffer := buf, bufend := buf + count * k } rfl rfl rfl
  exact ⟨_, allocRun_snoc m count _ _ _ _ _ hrun hlast⟩

/-- C1 as stated is false at a `size_t` overflow: for `slot_size = 8` and
`count = 2 ^ 61` the buffer-size product `count*size` wraps to `0`, so
`malloc(56)` succeeds, creation succeeds, but `bufend = buffer` and the very
first allocation — of the `count` the claim promises — returns NULL. -/
theorem C1_counterexample :
    ∃ a m1 a2,
      arena_init 8 2305843009213693952 (some 8) (fun _ => 0) = (some a, m1) ∧
      (0 : Nat) < 8 ∧ (0 : Nat) < 2305843009213693952 ∧
      arena_alloc a m1 = .ok (none, a2) :=
  ⟨_, _, _, rfl, by decide, by decide, rfl⟩

/-- C1 amended: for every `slot_size > 0` and every `count` whose buffer-size
product `count * max(slot_size, sizeof(void*))` does not overflow `size_t`,
on a freshly created arena (creation succeeded, i.e. the backing allocation
returned non-null `base`), the first `count` `arena_alloc` calls return the
addresses `buffer + i * size` — distinct, non-overlapping, slot-aligned and
inside the slot buffer — and the `(count+1)`-th call returns the exhaustion
signal (`none`, the C `NULL`).  When the product wraps mod `2 ^ 64`, creation
still succeeds but with a wrapped, smaller buffer. -/
theorem C1_fresh_arena_run (ss count base : Nat) (m0 : Mem)
    (hss : 0 < ss) (hbase : 0 < base)
    (hov : count * szmax ss PTR_SIZE < SIZE_T_MOD) :
    FreshRunOutcome ss count base m0 := by
  have hkpos : 0 < szmax ss PTR_SIZE := szmax_pos ss PTR_SIZE (by decide)
  obtain ⟨af, hafr⟩ := fresh_outcome_core (szmax ss PTR_SIZE) count
    (base + ARENA_HEADER_SIZE)
    (writeHeader m0 base (szmax ss PTR_SIZE) count (base + ARENA_HEADER_SIZE)) hkpos
  have hinit := arena_init_heap_ok ss count base m0
  rw [Nat.mod_eq_of_lt hov] at hinit
  refine ⟨_, _, af, hinit, rfl, rfl, rfl, hafr, ?_, ?_⟩
  · intro i hi
    dsimp only
    refine ⟨Nat.le_add_right _ _, ?_, ?_⟩
    · have hmul : (i + 1) * szmax ss PTR_SIZE ≤ count * szmax ss PTR_SIZE :=
        Nat.mul_le_mul_right _ hi
      calc base + ARENA_HEADER_SIZE + i * szmax ss PTR_SIZE + szmax ss PTR_SIZE
          = base + ARENA_HEADER_SIZE + (i + 1) * szmax ss PTR_SIZE := by ring
        _ ≤ base + ARENA_HEADER_SIZE + count * szmax ss PTR_SIZE :=
          Nat.add_le_add_left hmul _
    · rw [Nat.add_sub_cancel_left]
      exact Nat.mul_mod_left i _
  · intro i j hi hj hne
    dsimp only
    constructor
    · intro heq
      exact hne (Nat.eq_of_mul_eq_mul_right hkpos (Nat.add_left_cancel heq))
    · rcases Nat.lt_or_ge i j with hlt | hge
      · left
        have hmul : (i + 1) * szmax ss PTR_SIZE ≤ j * szmax ss PTR_SIZE :=
          Nat.mul_le_mul_right _ hlt
        calc base + ARENA_HEADER_SIZE + i * szmax ss PTR_SIZE + szmax ss PTR_SIZE
            = base + ARENA_HEADER_SIZE + (i + 1) * szmax ss PTR_SIZE := by ring
          _ ≤ base + ARENA_HEADER_SIZE + j * szmax ss PTR_SIZE :=
            Nat.add_le_add_left hmul _
      · right
        have hlt : j < i := by omega
        have hmul : (j + 1) * szmax ss PTR_SIZE ≤ i * szmax ss PTR_SIZE :=
          Nat.mul_le_mul_right _ hlt
        calc base + ARENA_HEADER_SIZE + j * szmax ss PTR_SIZE + szmax ss PTR_SIZE
            = base + ARENA_HEADER_SIZE + (j + 1) * szmax ss PTR_SIZE := by ring
          _ ≤ base + ARENA_HEADER_SIZE + i * szmax ss PTR_SIZE :=
            Nat.add_le_add_left hmul _

/-- Witness for C1 at `slot_size = 4`, `count = 2`, base `8`. -/
theorem C1_fresh_arena_run_witness :
    0 < 4 ∧ 0 < 8 ∧ 2 * szmax 4 PTR_SIZE < SIZE_T_MOD ∧
    FreshRunOutcome 4 2 8 (fun _ => 0) :=
  ⟨by decide, by decide, by decide,
   C1_fresh_arena_run 4 2 8 (fun _ => 0) (by decide) (by decide) (by decide)⟩

/-! ### Claim C2: LIFO reuse -/

/-- C2 as stated is false: on a fresh arena with `count = 4`, after allocating
`A = 64`, `B = 80`, `C = 96` and freeing `B`, the next `arena_alloc` returns
the never-touched slot `112` from the lazy bump cursor, not `B`. -/
theorem C2_counterexample :
    ∃ a0 m1 a3 a4 m4 a5,
      arena_init_ 16 4 8 120 (fun _ => 0) = (some a0, m1) ∧
      allocRun m1 a0 3 = .ok ([some 64, some 80, some 96], a3) ∧
      arena_free false a3 m1 80 = .ok (a4, m4) ∧
      arena_alloc a4 m4 = .ok (some 112, a5) ∧
      (112 : Nat) ≠ 80 :=
  ⟨_, _, _, _, _, _, rfl, rfl, rfl, rfl, by decide⟩

/-- C2 amended: reuse is LIFO in fast-path mode once lazy initialization no
longer supplies allocations.  If a non-null slot `p` is successfully freed and
either `lazy_init` is off or the bump cursor has reached the buffer end, the
next `arena_alloc` returns exactly `p`.  (During the lazy phase with
never-touched slots remaining, `arena_alloc` bump-allocates instead and does
not consult the free list.) -/
theorem C2_amended_lifo (a : Arena) (m : Mem) (p : Nat) (a1 : Arena) (m1 : Mem)
    (hp : p ≠ 0)
    (hfree : arena_free false a m p = .ok (a1, m1))
    (hlazy : a.lazy_init = false ∨ a.bufstart = a.bufend) :
    ∃ a2, arena_alloc a1 m1 = .ok (some p, a2) := by
  obtain ⟨hin, ha1, hm1⟩ := arena_free_ok_inv false a m p a1 m1 hp hfree
  subst ha1; subst hm1
  have hguard := read64_guard_roundtrip m p a.free_list
  rcases hlazy with hl | hbe
  · refine ⟨{ a with free_list := read64 (write64 (write64 m p GUARD_BITS) (p + 8) a.free_list) (p + 8) }, ?_⟩
    simp [arena_alloc, hl, recycle, hp, hguard]
  · by_cases hl2 : a.lazy_init
    · refine ⟨{ a with lazy_init := false, free_list := read64 (write64 (write64 m p GUARD_BITS) (p + 8) a.free_list) (p + 8) }, ?_⟩
      simp [arena_alloc, hl2, lazy_alloc, hbe, recycle, hp, hguard]
    · refine ⟨{ a with free_list := read64 (write64 (write64 m p GUARD_BITS) (p + 8) a.free_list) (p + 8) }, ?_⟩
      simp [arena_alloc, hl2, recycle, hp, hguard]

/-- Witness for the amended C2 on a concrete post-lazy arena. -/
theorem C2_amended_lifo_witness :
    ∃ a2, arena_alloc { size := 16, count := 3, lazy_init := false, free_list := 80,
                        bufstart := 112, buffer := 64, bufend := 112 }
        (write64 (write64 (fun _ => 0) 80 GUARD_BITS) 88 0) = .ok (some 80, a2) :=
  C2_amended_lifo
    { size := 16, count := 3, lazy_init := false, free_list := 0,
      bufstart := 112, buffer := 64, bufend := 112 }
    (fun _ => 0) 80
    { size := 16, count := 3, lazy_init := false, free_list := 80,
      bufstart := 112, buffer := 64, bufend := 112 }
    (write64 (write64 (fun _ => 0) 80 GUARD_BITS) 88 0)
    (by decide) rfl (Or.inl rfl)

/-! ### Claim C10: the guard layer is independent of the debug flag -/

/-- C10: in every build configuration (`hc` arbitrary), a successful
`arena_free` of a non-null pointer leaves `GUARD_BITS` in the first eight
bytes of the freed slot and pushes it on the free list; `recycle` — the only
way `arena_alloc` pops the free list, in both its call sites — reports the
fatal condition whenever the stored sentinel was modified, with no dependence
on any flag; and with `hc = false` the free of a valid pointer performs no
scan that could fail: it always succeeds with exactly the two sentinel/link
stores.  Only `check_heap` and `detect_double_free_go` sit behind `hc`. -/
theorem C10_guard_write_and_check_unconditional :
    (∀ (hc : Bool) (a : Arena) (m : Mem) (p : Nat) (a1 : Arena) (m1 : Mem),
        p ≠ 0 → arena_free hc a m p = .ok (a1, m1) →
        read64 m1 p = GUARD_BITS ∧ a1.free_list = p) ∧
    (∀ (fl : Nat) (m : Mem), fl ≠ 0 → read64 m fl ≠ GUARD_BITS →
        recycle fl m = .error .useAfterFree) ∧
    (∀ (a : Arena) (m : Mem) (p : Nat), p ≠ 0 → in_range a.buffer p a.bufend = true →
        arena_free false a m p =
          .ok ({ a with free_list := p },
               write64 (write64 m p GUARD_BITS) (p + 8) a.free_list)) := by
  refine ⟨?_, ?_, ?_⟩
  · intro hc a m p a1 m1 hp h
    obtain ⟨hin, ha1, hm1⟩ := arena_free_ok_inv hc a m p a1 m1 hp h
    subst ha1; subst hm1
    exact ⟨read64_guard_roundtrip m p a.free_list, rfl⟩
  · intro fl m hfl hg
    simp [recycle, hfl, hg]
  · intro a m p hp hin
    exact arena_free_fast_ok a m p hp hin

/-- Witness for C10, applying its first conjunct to a concrete release-build
(`hc = false`) free. -/
theorem C10_guard_write_and_check_unconditional_witness :
    read64 (write64 (write64 (fun _ => 0) 80 GUARD_BITS) 88 0) 80 = GUARD_BITS ∧
    ({ size := 16, count := 3, lazy_init := false, free_list := 80,
       bufstart := 112, buffer := 64, bufend := 112 } : Arena).free_list = 80 :=
  C10_guard_write_and_check_unconditional.1 false
    { size := 16, count := 3, lazy_init := false, free_list := 0,
      bufstart := 112, buffer := 64, bufend := 112 }
    (fun _ => 0) 80
    { size := 16, count := 3, lazy_init := false, free_list := 80,
      bufstart := 112, buffer := 64, bufend := 112 }
    (write64 (write64 (fun _ => 0) 80 GUARD_BITS) 88 0)
    (by decide) rfl

/-! ### Claim C5: the per-slot size computation at creation -/

/-- C5 as stated is false: for `slot_size = 9` the recorded per-slot size is
`max(9, sizeof(void*)) = 9`, not the least multiple of the pointer size
`specRoundUp 9 = 16`; it is not even a multiple of the pointer size. -/
theorem C5_counterexample :
    ∃ a m1, arena_init_ 9 1 8 65 (fun _ => 0) = (some a, m1) ∧
      a.size = 9 ∧ specRoundUp 9 = 16 ∧ a.size ≠ specRoundUp 9 ∧
      a.size % PTR_SIZE ≠ 0 :=
  ⟨_, _, rfl, rfl, rfl, by decide, by decide⟩

/-- C5 amended: creation clamps the slot size from below to the native
pointer size — the recorded per-slot size is `max(slot_size, sizeof(void*))`,
which is not rounded up to a multiple of the pointer size. -/
theorem C5_amended_size_clamp (size count base len : Nat) (m : Mem) (a : Arena)
    (m1 : Mem) (h : arena_init_ size count base len m = (some a, m1)) :
    a.size = szmax size PTR_SIZE := by
  rw [arena_init_eq_some size count base len m a m1 h]

/-- Witness for the amended C5 at `slot_size = 9`. -/
theorem C5_amended_size_clamp_witness :
    ({ size := 9, count := 1, lazy_init := true, free_list := 0, bufstart := 64,
       buffer := 64, bufend := 73 } : Arena).size = szmax 9 PTR_SIZE :=
  C5_amended_size_clamp 9 1 8 65 (fun _ => 0) _ _ rfl

/-! ### Claim C6: insufficient placement length -/

/-- C6: placement creation with a length below the computed requirement
`sizeof(struct arena) + max(slot_size, sizeof(void*)) * count` fails and
returns the supplied memory byte-for-byte unchanged (the very same map). -/
theorem C6_insufficient_len_no_write (size count base len : Nat) (m : Mem)
    (hov : ARENA_HEADER_SIZE + szmax size PTR_SIZE * count < SIZE_T_MOD)
    (hlen : len < ARENA_HEADER_SIZE + szmax size PTR_SIZE * count) :
    arena_init_ size count base len m = (none, m) := by
  simp [arena_init_, Nat.mod_eq_of_lt hov, hlen]

/-- Witness for C6: `create_in(64, 5, buffer, 10)` fails without writing. -/
theorem C6_insufficient_len_no_write_witness :
    arena_init_ 64 5 8 10 (fun _ => 0) = (none, fun _ => 0) :=
  C6_insufficient_len_no_write 64 5 8 10 (fun _ => 0) (by decide) (by decide)

/-! ### Claim C7: validation of freed pointers -/

/-- C7 as stated is false: the in-bounds mid-slot pointer `65` (offset 1 into
the first 16-byte slot) is not reported through the error hook — `arena_free`
accepts it and links it into the free list. -/
theorem C7_counterexample :
    ∃ a m1 r,
      arena_init_ 16 2 8 88 (fun _ => 0) = (some a, m1) ∧
      in_range a.buffer 65 a.bufend = true ∧
      (65 - a.buffer) % a.size ≠ 0 ∧
      arena_free false a m1 65 = .ok r ∧
      r.1.free_list = 65 :=
  ⟨_, _, _, rfl, rfl, by decide, rfl, rfl⟩

/-- C7 amended: `arena_free` validates only that a non-null pointer lies in
`[buffer, bufend)`; any non-null out-of-bounds pointer is reported as the
fatal `InvalidFree` through the error hook (the arena is not mutated: the
operation aborts), in every build configuration.  Slot alignment is not
checked, so an in-bounds mid-slot pointer is linked in rather than reported. -/
theorem C7_amended_bounds_check_only (hc : Bool) (a : Arena) (m : Mem) (p : Nat)
    (hp : p ≠ 0) (hout : in_range a.buffer p a.bufend = false) :
    arena_free hc a m p = .error .invalidFree := by
  simp [arena_free, hp, hout]

/-- Witness for the amended C7 on an out-of-bounds pointer. -/
theorem C7_amended_bounds_check_only_witness :
    arena_free false { size := 16, count := 2, lazy_init := true, free_list := 0, bufstart := 64, buffer := 64, bufend := 96 } (fun _ => 0) 200 = .error .invalidFree :=
  C7_amended_bounds_check_only false
    { size := 16, count := 2, lazy_init := true, free_list := 0, bufstart := 64, buffer := 64, bufend := 96 }
    (fun _ => 0) 200 (by decide) (by decide)

/-! ### Claim C8: zero-sized and count-zero creation requests -/

/-- After the lazy phase ends with an empty free list, every further
allocation returns the exhaustion signal and leaves the arena unchanged. -/
theorem allocRun_empty_steady (m : Mem) (a : Arena) (h1 : a.lazy_init = false)
    (h3 : a.free_list = 0) :
    ∀ n, allocRun m a n = .ok (List.replicate n none, a) := by
  intro n
  induction n with
  | zero => simp [allocRun]
  | succ k ih =>
    have h := arena_alloc_empty m a h1 h3
    have goalEq : allocRun m a (k + 1) =
        match arena_alloc a m with
        | .error e => .error e
        | .ok (r1, c) =>
          match allocRun m c k with
          | .error e => .error e
          | .ok (rs, a2) => .ok (r1 :: rs, a2) := rfl
    rw [goalEq, h]
    dsimp only
    rw [ih]
    rfl

/-- A count-zero arena signals exhaustion on every allocation, forever. -/
theorem allocRun_all_none (m : Mem) (a : Arena) (h1 : a.lazy_init = true)
    (h2 : a.bufstart = a.bufend) (h3 : a.free_list = 0) :
    ∀ n, ∃ af, allocRun m a n = .ok (List.replicate n none, af) := by
  intro n
  cases n with
  | zero => exact ⟨a, rfl⟩
  | succ k =>
    have h := arena_alloc_exhausted m a h1 h2 h3
    have hsteady := allocRun_empty_steady m { a with lazy_init := false, free_list := 0 }
      rfl rfl k
    have goalEq : allocRun m a (k + 1) =
        match arena_alloc a m with
        | .error e => .error e
        | .ok (r1, c) =>
          match allocRun m c k with
          | .error e => .error e
          | .ok (rs, a2) => .ok (r1 :: rs, a2) := rfl
    have hfinal : allocRun m a (k + 1) =
        .ok (List.replicate (k + 1) none, { a with lazy_init := false, free_list := 0 }) := by
      rw [goalEq, h]
      dsimp only
      rw [hsteady]
      rfl
    exact ⟨_, hfinal⟩

/-- C8 as stated is false for the `slot_size = 0` half: creation succeeds but
the arena does not always report exhaustion — the first `arena_alloc` on a
`slot_size = 0`, `count = 1` arena succeeds and returns the first slot. -/
theorem C8_counterexample :
    ∃ a m1 a2, arena_init 0 1 (some 8) (fun _ => 0) = (some a, m1) ∧
      arena_alloc a m1 = .ok (some 64, a2) ∧ (some 64 : Option Nat) ≠ none :=
  ⟨_, _, _, rfl, rfl, by decide⟩

/-- What the amended C8 asserts: a `count = 0` request is accepted (given a
successful backing allocation) and the resulting arena reports exhaustion on
every allocation forever; a `slot_size = 0` request is also accepted, but its
slot size is clamped to the pointer size and it behaves as a normal
`count`-slot arena — `count` allocations succeed before exhaustion. -/
def ZeroRequestOutcome : Prop :=
  (∀ (ss base : Nat) (m0 : Mem), ∃ a m1,
      arena_init ss 0 (some base) m0 = (some a, m1) ∧
      ∀ n, ∃ af, allocRun m1 a n = .ok (List.replicate n none, af)) ∧
  (∀ (count base : Nat) (m0 : Mem), count * PTR_SIZE < SIZE_T_MOD → ∃ a m1 af,
      arena_init 0 count (some base) m0 = (some a, m1) ∧
      a.size = PTR_SIZE ∧
      allocRun m1 a (count + 1) =
        .ok ((List.range count).map (fun i => some (a.buffer + i * a.size)) ++ [none], af))

/-- C8 amended: count-zero requests always report exhaustion; zero-sized
requests whose buffer-size product `count * sizeof(void*)` does not overflow
`size_t` produce a fully functional arena of `count` pointer-sized slots
(`count` allocations succeed before exhaustion). -/
theorem C8_amended_zero_requests : ZeroRequestOutcome := by
  constructor
  · intro ss base m0
    refine ⟨_, _, arena_init_heap_ok ss 0 base m0, ?_⟩
    exact allocRun_all_none _ _ rfl (by simp) rfl
  · intro count base m0 hov
    obtain ⟨af, hafr⟩ := fresh_outcome_core (szmax 0 PTR_SIZE) count
      (base + ARENA_HEADER_SIZE)
      (writeHeader m0 base (szmax 0 PTR_SIZE) count (base + ARENA_HEADER_SIZE))
      (by decide)
    have hinit := arena_init_heap_ok 0 count base m0
    rw [Nat.mod_eq_of_lt (show count * szmax 0 PTR_SIZE < SIZE_T_MOD from hov)] at hinit
    exact ⟨_, _, af, hinit, rfl, hafr⟩

/-- Witness for the amended C8, applying its second conjunct at
`slot_size = 0`, `count = 1`. -/
theorem C8_amended_zero_requests_witness :
    ∃ a m1 af,
      arena_init 0 1 (some 8) (fun _ => 0) = (some a, m1) ∧
      a.size = PTR_SIZE ∧
      allocRun m1 a (1 + 1) =
        .ok ((List.range 1).map (fun i => some (a.buffer + i * a.size)) ++ [none], af) :=
  C8_amended_zero_requests.2 1 8 (fun _ => 0) (by decide)

/-! ### Claim C4: the three-state partition and free-list shape (code bug) -/

/-- C4 is the intent of the code but the code breaks it: with
`slot_size = 1` (clamped to 8, smaller than the 16-byte `struct node`),
the valid sequence alloc, alloc, free(first), free(second) corrupts the free
list — the guard store of the second free lands on the `next` field of the
first freed node.  Walking the resulting list yields three entries ending in the wild
address `GUARD_BITS`, although `count - live - never-touched = 2 - 0 - 0 = 2`
and every entry should lie inside the buffer. -/
theorem C4_code_bug_free_list_corrupted :
    ∃ a0 m1 a2 a3 m3 a4 m4,
      arena_init_ 1 2 8 72 (fun _ => 0) = (some a0, m1) ∧
      allocRun m1 a0 2 = .ok ([some 64, some 72], a2) ∧
      arena_free false a2 m1 64 = .ok (a3, m3) ∧
      arena_free false a3 m3 72 = .ok (a4, m4) ∧
      freeListWalk m4 4 a4.free_list = [72, 64, GUARD_BITS] ∧
      (freeListWalk m4 4 a4.free_list).length = 3 ∧
      a4.count = 2 ∧
      ¬(GUARD_BITS < a4.bufend) :=
  ⟨_, _, _, _, _, _, _, rfl, rfl, rfl, rfl, by decide, by decide, rfl, by decide⟩

/-! ### Claim C9: bookkeeping never touches live slots (code bug) -/

/-- C9 is the intent of the code (the `struct node` comment promises at least
space for a full node in every slot) but `arena_init` only guarantees
`sizeof(void*)` bytes: with `slot_size = 1` (clamped to 8), freeing slot `A`
at 64 writes its 8-byte `next` field at bytes 72..79 — inside the live slot
`B` at 72 — changing a live byte from 7 to 0. -/
theorem C9_code_bug_free_writes_into_live_slot :
    ∃ a0 m1 a2 r,
      arena_init_ 1 2 8 72 (fun _ => 7) = (some a0, m1) ∧
      allocRun m1 a0 2 = .ok ([some 64, some 72], a2) ∧
      arena_free false a2 m1 64 = .ok r ∧
      m1 72 = 7 ∧
      r.2 72 = 0 :=
  ⟨_, _, _, _, rfl, rfl, rfl, by decide, by decide⟩

end ArenaC
